import Mathlib

/-!
Verification of the browser music player (file upload, localStorage
persistence, playback state hook, Web Audio wrapper).

Shallow embedding conventions:
* JS numbers that the claims treat as reals are modelled as rationals;
  where a claim distinguishes NaN, the type JsNum adds an explicit NaN.
* localStorage is an association list from string keys to string values
  plus an availability flag; an unavailable store makes every raw access
  throw, modelled with Except.
* The browser JSON layer (JSON.stringify / JSON.parse) is modelled by an
  executable injective serializer and a matching parser over the record
  types the code stores; the code uses only the round-trip property and
  the fact that parsing corrupt strings fails, both of which the model
  provides.  Strings are serialized length-prefixed, so arbitrary
  contents (quotes, separators) round-trip.
* Nondeterministic browser inputs (generated ids, clock, decoded audio
  duration, FileReader results) are passed as explicit environment
  parameters.
-/

/-! ## Serialization core: a model of the browser JSON layer -/

/-- Character for a decimal digit below ten. -/
def digitCharOf (d : Nat) : Char :=
  if d = 0 then '0' else if d = 1 then '1' else if d = 2 then '2'
  else if d = 3 then '3' else if d = 4 then '4' else if d = 5 then '5'
  else if d = 6 then '6' else if d = 7 then '7' else if d = 8 then '8'
  else '9'

/-- Numeric value of a decimal digit character. -/
def charDigitOf (c : Char) : Nat :=
  if c = '0' then 0 else if c = '1' then 1 else if c = '2' then 2
  else if c = '3' then 3 else if c = '4' then 4 else if c = '5' then 5
  else if c = '6' then 6 else if c = '7' then 7 else if c = '8' then 8
  else 9

/-- Is the character a decimal digit. -/
def isDigitCh (c : Char) : Bool :=
  c = '0' ∨ c = '1' ∨ c = '2' ∨ c = '3' ∨ c = '4' ∨ c = '5' ∨ c = '6'
    ∨ c = '7' ∨ c = '8' ∨ c = '9'

/-- Decimal digits of a number, most significant first; fuel-driven so that
the recursion is structural. -/
def natDigitsGo : Nat → Nat → List Char
  | 0, _ => []
  | fuel + 1, n =>
    if n < 10 then [digitCharOf n]
    else natDigitsGo fuel (n / 10) ++ [digitCharOf (n % 10)]

/-- Decimal digits of a number, most significant first. -/
def natDigits (n : Nat) : List Char := natDigitsGo (n + 1) n

/-- Value of a most-significant-first digit string. -/
def digitsVal (l : List Char) : Nat :=
  l.foldl (fun acc c => 10 * acc + charDigitOf c) 0

theorem charDigitOf_digitCharOf (d : Nat) (h : d < 10) :
    charDigitOf (digitCharOf d) = d := by
  interval_cases d <;> decide

theorem isDigitCh_digitCharOf (d : Nat) (h : d < 10) :
    isDigitCh (digitCharOf d) = true := by
  interval_cases d <;> decide

theorem digitCharOf_ne_hash (d : Nat) (h : d < 10) :
    digitCharOf d ≠ '#' := by
  interval_cases d <;> decide

theorem digitsVal_append (l : List Char) (c : Char) :
    digitsVal (l ++ [c]) = 10 * digitsVal l + charDigitOf c := by
  simp [digitsVal, List.foldl_append]

theorem natDigitsGo_spec :
    ∀ fuel n, n < fuel →
      digitsVal (natDigitsGo fuel n) = n
      ∧ (∀ c ∈ natDigitsGo fuel n, isDigitCh c = true ∧ c ≠ '#') := by
  intro fuel
  induction fuel with
  | zero => intro n h; omega
  | succ f ih =>
    intro n h
    by_cases h10 : n < 10
    · constructor
      · simp [natDigitsGo, h10, digitsVal, charDigitOf_digitCharOf n h10]
      · intro c hc
        simp [natDigitsGo, h10] at hc
        subst hc
        exact ⟨isDigitCh_digitCharOf n h10, digitCharOf_ne_hash n h10⟩
    · have hdiv : n / 10 < f := by
        have h1 : n / 10 < n := Nat.div_lt_self (by omega) (by omega)
        omega
      obtain ⟨ihv, ihd⟩ := ih (n / 10) hdiv
      constructor
      · simp only [natDigitsGo, h10, if_false, digitsVal_append, ihv,
          charDigitOf_digitCharOf (n % 10) (Nat.mod_lt n (by omega))]
        omega
      · intro c hc
        simp only [natDigitsGo, h10, if_false, List.mem_append,
          List.mem_singleton] at hc
        rcases hc with hc | hc
        · exact ihd c hc
        · subst hc
          exact ⟨isDigitCh_digitCharOf (n % 10) (Nat.mod_lt n (by omega)),
            digitCharOf_ne_hash (n % 10) (Nat.mod_lt n (by omega))⟩

theorem digitsVal_natDigits (n : Nat) : digitsVal (natDigits n) = n :=
  (natDigitsGo_spec (n + 1) n (Nat.lt_succ_self n)).1

theorem natDigits_digits (n : Nat) :
    ∀ c ∈ natDigits n, isDigitCh c = true ∧ c ≠ '#' :=
  (natDigitsGo_spec (n + 1) n (Nat.lt_succ_self n)).2

/-- Split a character list at the first hash mark. -/
def splitAtHash : List Char → Option (List Char × List Char)
  | [] => none
  | c :: rest =>
    if c = '#' then some ([], rest)
    else
      match splitAtHash rest with
      | none => none
      | some (a, b) => some (c :: a, b)

theorem splitAtHash_append (l r : List Char) (h : ∀ c ∈ l, c ≠ '#') :
    splitAtHash (l ++ '#' :: r) = some (l, r) := by
  induction l with
  | nil => simp [splitAtHash]
  | cons c rest ih =>
    have hc : c ≠ '#' := h c (List.mem_cons_self c rest)
    have hr : ∀ x ∈ rest, x ≠ '#' := fun x hx => h x (List.mem_cons_of_mem c hx)
    simp [splitAtHash, hc, ih hr]

/-- Serialized form of a natural number: decimal digits, hash-terminated. -/
def eNat (n : Nat) : List Char := natDigits n ++ ['#']

/-- Parse a serialized natural number. -/
def pNat (l : List Char) : Option (Nat × List Char) :=
  match splitAtHash l with
  | none => none
  | some (ds, rest) =>
    if ds.all isDigitCh then some (digitsVal ds, rest) else none

theorem pNat_eNat (n : Nat) (r : List Char) :
    pNat (eNat n ++ r) = some (n, r) := by
  have hnd : ∀ c ∈ natDigits n, c ≠ '#' := fun c hc => (natDigits_digits n c hc).2
  have hall : (natDigits n).all isDigitCh = true := by
    rw [List.all_eq_true]
    exact fun c hc => (natDigits_digits n c hc).1
  simp only [eNat, List.append_assoc, List.singleton_append, pNat,
    splitAtHash_append (natDigits n) r hnd, hall, if_true, digitsVal_natDigits]

/-- Serialized form of a string: length-prefixed contents. -/
def eStr (s : String) : List Char := eNat s.data.length ++ s.data

/-- Parse a serialized string. -/
def pStr (l : List Char) : Option (String × List Char) :=
  match pNat l with
  | none => none
  | some (n, rest) =>
    if n ≤ rest.length then some (String.mk (rest.take n), rest.drop n)
    else none

theorem pStr_eStr (s : String) (r : List Char) :
    pStr (eStr s ++ r) = some (s, r) := by
  simp only [eStr, List.append_assoc, pStr, pNat_eNat]
  have hle : s.data.length ≤ (s.data ++ r).length := by
    simp [List.length_append]
  simp [hle, List.take_left, List.drop_left]

/-- Serialized form of an integer: a sign flag then the absolute value. -/
def eInt (i : ℤ) : List Char :=
  (if i < 0 then '1' else '0') :: eNat i.natAbs

/-- Parse a serialized integer. -/
def pInt : List Char → Option (ℤ × List Char)
  | [] => none
  | c :: rest =>
    match pNat rest with
    | none => none
    | some (n, r) =>
      if c = '1' then some (-(n : ℤ), r)
      else if c = '0' then some ((n : ℤ), r) else none

theorem pInt_eInt (i : ℤ) (r : List Char) :
    pInt (eInt i ++ r) = some (i, r) := by
  by_cases h : i < 0
  · have habs : -((i.natAbs : ℤ)) = i := by omega
    simp only [eInt, h, if_true, List.cons_append, pInt, pNat_eNat, if_true, habs]
  · have habs : ((i.natAbs : ℤ)) = i := by omega
    simp only [eInt, h, if_false, List.cons_append, pInt, pNat_eNat, habs]
    norm_num
    intro hc
    exact absurd hc (by decide)

/-- Serialized form of a rational: numerator then denominator. -/
def eRat (q : ℚ) : List Char := eInt q.num ++ eNat q.den

/-- Rebuild a rational from its numerator and denominator without any
arithmetic, so that parsed values reduce in the kernel. -/
def ratOfParts (num : ℤ) (den : ℕ) : ℚ :=
  if h : den ≠ 0 ∧ num.natAbs.gcd den = 1 then ⟨num, den, h.1, h.2⟩ else 0

theorem ratOfParts_self (q : ℚ) : ratOfParts q.num q.den = q := by
  have h : q.den ≠ 0 ∧ q.num.natAbs.gcd q.den = 1 := ⟨q.den_nz, q.reduced⟩
  simp only [ratOfParts, dif_pos h]

/-- Parse a serialized rational. -/
def pRat (l : List Char) : Option (ℚ × List Char) :=
  match pInt l with
  | none => none
  | some (num, l1) =>
    match pNat l1 with
    | none => none
    | some (den, l2) => some (ratOfParts num den, l2)

theorem pRat_eRat (q : ℚ) (r : List Char) :
    pRat (eRat q ++ r) = some (q, r) := by
  simp [eRat, List.append_assoc, pRat, pInt_eInt, pNat_eNat, ratOfParts_self]

/-- Serialized form of a boolean. -/
def eBool (b : Bool) : List Char := [if b then '1' else '0']

/-- Parse a serialized boolean. -/
def pBool : List Char → Option (Bool × List Char)
  | [] => none
  | c :: rest =>
    if c = '1' then some (true, rest)
    else if c = '0' then some (false, rest) else none

theorem pBool_eBool (b : Bool) (r : List Char) :
    pBool (eBool b ++ r) = some (b, r) := by
  cases b <;> simp [eBool, pBool]

/-- Serialized form of a nullable string. -/
def eOptStr : Option String → List Char
  | none => '0' :: []
  | some s => '1' :: eStr s

/-- Parse a serialized nullable string. -/
def pOptStr : List Char → Option (Option String × List Char)
  | [] => none
  | c :: rest =>
    if c = '0' then some (none, rest)
    else if c = '1' then
      match pStr rest with
      | none => none
      | some (s, r) => some (some s, r)
    else none

theorem pOptStr_eOptStr (o : Option String) (r : List Char) :
    pOptStr (eOptStr o ++ r) = some (o, r) := by
  cases o with
  | none => simp [eOptStr, pOptStr]
  | some s => simp [eOptStr, pOptStr, List.append_assoc, pStr_eStr]

/-! ## Data model of the storage service (src/unnamed/part_000) -/

/-- Metadata extracted from an audio file (extractMetadata). -/
structure AudioMetadata where
  duration : ℚ
  name : String
  fileName : String
  size : Nat
  type : String
  lastModified : Nat
deriving DecidableEq

/-- A stored audio record as written by saveAudioFile. -/
structure AudioFile where
  id : String
  data : String
  metadata : AudioMetadata
  createdAt : String
  playCount : Nat
  lastPlayed : Option String
deriving DecidableEq

/-- Serialized form of an audio metadata record. -/
def eMeta (m : AudioMetadata) : List Char :=
  eRat m.duration ++ eStr m.name ++ eStr m.fileName ++ eNat m.size
    ++ eStr m.type ++ eNat m.lastModified

/-- Parse a serialized audio metadata record. -/
def pMeta (l : List Char) : Option (AudioMetadata × List Char) :=
  match pRat l with
  | none => none
  | some (duration, l1) =>
    match pStr l1 with
    | none => none
    | some (name, l2) =>
      match pStr l2 with
      | none => none
      | some (fileName, l3) =>
        match pNat l3 with
        | none => none
        | some (size, l4) =>
          match pStr l4 with
          | none => none
          | some (type, l5) =>
            match pNat l5 with
            | none => none
            | some (lastModified, l6) =>
              some ({ duration := duration, name := name, fileName := fileName,
                      size := size, type := type, lastModified := lastModified }, l6)

theorem pMeta_eMeta (m : AudioMetadata) (r : List Char) :
    pMeta (eMeta m ++ r) = some (m, r) := by
  simp [eMeta, pMeta, List.append_assoc, pRat_eRat, pStr_eStr, pNat_eNat]

/-- Serialized form of a stored audio record. -/
def eFileRec (f : AudioFile) : List Char :=
  eStr f.id ++ eStr f.data ++ eMeta f.metadata ++ eStr f.createdAt
    ++ eNat f.playCount ++ eOptStr f.lastPlayed

/-- Parse a serialized audio record. -/
def pFileRec (l : List Char) : Option (AudioFile × List Char) :=
  match pStr l with
  | none => none
  | some (id, l1) =>
    match pStr l1 with
    | none => none
    | some (data, l2) =>
      match pMeta l2 with
      | none => none
      | some (metadata, l3) =>
        match pStr l3 with
        | none => none
        | some (createdAt, l4) =>
          match pNat l4 with
          | none => none
          | some (playCount, l5) =>
            match pOptStr l5 with
            | none => none
            | some (lastPlayed, l6) =>
              some ({ id := id, data := data, metadata := metadata,
                      createdAt := createdAt, playCount := playCount,
                      lastPlayed := lastPlayed }, l6)

theorem pFileRec_eFileRec (f : AudioFile) (r : List Char) :
    pFileRec (eFileRec f ++ r) = some (f, r) := by
  simp [eFileRec, pFileRec, List.append_assoc, pStr_eStr, pMeta_eMeta,
    pNat_eNat, pOptStr_eOptStr]

/-- Serialized form of a list of audio records: a count then the records. -/
def eFiles (l : List AudioFile) : List Char :=
  eNat l.length ++ (l.map eFileRec).flatten

/-- Parse a given number of serialized audio records. -/
def pFilesN : Nat → List Char → Option (List AudioFile × List Char)
  | 0, l => some ([], l)
  | n + 1, l =>
    match pFileRec l with
    | none => none
    | some (f, l1) =>
      match pFilesN n l1 with
      | none => none
      | some (fs, l2) => some (f :: fs, l2)

theorem pFilesN_eFiles (fs : List AudioFile) (r : List Char) :
    pFilesN fs.length ((fs.map eFileRec).flatten ++ r) = some (fs, r) := by
  induction fs with
  | nil => simp [pFilesN]
  | cons f rest ih =>
    simp [pFilesN, List.append_assoc, pFileRec_eFileRec, ih]

/-- Model of JSON.stringify applied to the audio-file list. -/
def jsonStringifyFiles (l : List AudioFile) : String := String.mk (eFiles l)

/-- Model of JSON.parse applied to a stored audio-file list; none models a
parse error (JSON.parse throwing). -/
def jsonParseFiles (s : String) : Option (List AudioFile) :=
  match pNat s.data with
  | none => none
  | some (n, rest) =>
    match pFilesN n rest with
    | some (fs, []) => some fs
    | _ => none

theorem jsonParseFiles_stringify (l : List AudioFile) :
    jsonParseFiles (jsonStringifyFiles l) = some l := by
  have h2 := pFilesN_eFiles l []
  rw [List.append_nil] at h2
  simp only [jsonParseFiles, jsonStringifyFiles, eFiles, pNat_eNat, h2]

/-- User preferences record (getUserPreferences); the JS object field
named repeat is called repeatMode here because repeat is reserved in Lean. -/
structure UserPreferences where
  volume : ℚ
  shuffle : Bool
  repeatMode : String
  theme : String
deriving DecidableEq

/-- Serialized form of the preferences record. -/
def ePrefs (p : UserPreferences) : List Char :=
  eRat p.volume ++ eBool p.shuffle ++ eStr p.repeatMode ++ eStr p.theme

/-- Parse a serialized preferences record. -/
def pPrefs (l : List Char) : Option (UserPreferences × List Char) :=
  match pRat l with
  | none => none
  | some (volume, l1) =>
    match pBool l1 with
    | none => none
    | some (shuffle, l2) =>
      match pStr l2 with
      | none => none
      | some (repeatMode, l3) =>
        match pStr l3 with
        | none => none
        | some (theme, l4) =>
          some ({ volume := volume, shuffle := shuffle,
                  repeatMode := repeatMode, theme := theme }, l4)

/-- Model of JSON.parse for the preferences record. -/
def jsonParsePrefs (s : String) : Option UserPreferences :=
  match pPrefs s.data with
  | some (p, []) => some p
  | _ => none

/-- Playback state record.  The JS object is schemaless (savePlaybackState
spreads an arbitrary state object and adds a timestamp); it is modelled with
a representative shape, which is irrelevant to the claims: only the
absence / parse-failure behaviour of getPlaybackState is at stake. -/
structure PlaybackState where
  currentTrackId : Option String
  position : ℚ
  isPlaying : Bool
  timestamp : String
deriving DecidableEq

/-- Parse a serialized playback record. -/
def pPlayback (l : List Char) : Option (PlaybackState × List Char) :=
  match pOptStr l with
  | none => none
  | some (currentTrackId, l1) =>
    match pRat l1 with
    | none => none
    | some (position, l2) =>
      match pBool l2 with
      | none => none
      | some (isPlaying, l3) =>
        match pStr l3 with
        | none => none
        | some (timestamp, l4) =>
          some ({ currentTrackId := currentTrackId, position := position,
                  isPlaying := isPlaying, timestamp := timestamp }, l4)

/-- Model of JSON.parse for the playback record. -/
def jsonParsePlayback (s : String) : Option PlaybackState :=
  match pPlayback s.data with
  | some (p, []) => some p
  | _ => none

/-! ## localStorage model -/

/-- Browser localStorage: an availability flag (access throws when the store
is unavailable) and insertion-ordered key/value pairs of strings. -/
structure LocalStorage where
  available : Bool
  items : List (String × String)
deriving DecidableEq

/-- Look up a key in the item list. -/
def lookupItem : List (String × String) → String → Option String
  | [], _ => none
  | (k2, v) :: rest, k => if k2 = k then some v else lookupItem rest k

/-- Overwrite a key (keeping its position) or append a new pair. -/
def setItemList : List (String × String) → String → String → List (String × String)
  | [], k, v => [(k, v)]
  | (k2, v2) :: rest, k, v =>
    if k2 = k then (k2, v) :: rest else (k2, v2) :: setItemList rest k v

/-- localStorage.getItem: throws (Except.error) when the store is unavailable. -/
def LocalStorage.getItemE (st : LocalStorage) (k : String) : Except Unit (Option String) :=
  if st.available then Except.ok (lookupItem st.items k) else Except.error ()

/-- localStorage.setItem: throws when the store is unavailable. -/
def LocalStorage.setItemE (st : LocalStorage) (k v : String) : Except Unit LocalStorage :=
  if st.available then Except.ok { st with items := setItemList st.items k v }
  else Except.error ()

/-- STORAGE_KEYS.AUDIO_FILES. -/
def audioFilesKey : String := "player_audio_files"

/-- STORAGE_KEYS.PLAYBACK_STATE. -/
def playbackStateKey : String := "player_playback_state"

/-- STORAGE_KEYS.USER_PREFERENCES. -/
def userPreferencesKey : String := "player_user_preferences"

/-- checkStorageAvailability: the probe write/remove of the test key
succeeds exactly when the store is available. -/
def checkStorageAvailability (st : LocalStorage) : Bool := st.available

theorem lookupItem_setItemList_self (items : List (String × String)) (k v : String) :
    lookupItem (setItemList items k v) k = some v := by
  induction items with
  | nil => simp [setItemList, lookupItem]
  | cons kv rest ih =>
    by_cases h : kv.1 = k
    · simp [setItemList, lookupItem, h]
    · simp [setItemList, lookupItem, h, ih]

/-! ## Files, base64 and the FileReader model -/

/-- A browser File: name, MIME type, reported size, raw bytes, mtime. -/
structure BlobFile where
  name : String
  type : String
  size : Nat
  content : List Nat
  lastModified : Nat
deriving DecidableEq

/-- The base64 alphabet. -/
def base64Chars : List Char :=
  "ABCDEFGHIJKLMNOPQRSTUVWXYZabcdefghijklmnopqrstuvwxyz0123456789+/".data

/-- Character at a base64 index. -/
def b64Char (n : Nat) : Char := base64Chars.getD n '='

/-- Standard base64 of a byte list, with padding. -/
def base64Enc : List Nat → List Char
  | [] => []
  | [a] => [b64Char (a / 4), b64Char (a % 4 * 16), '=', '=']
  | [a, b] => [b64Char (a / 4), b64Char (a % 4 * 16 + b / 16), b64Char (b % 16 * 4), '=']
  | a :: b :: c :: rest =>
    [b64Char (a / 4), b64Char (a % 4 * 16 + b / 16),
     b64Char (b % 16 * 4 + c / 64), b64Char (c % 64)] ++ base64Enc rest

/-- The data URL that FileReader.readAsDataURL produces for a file. -/
def dataUrl (f : BlobFile) : String :=
  "data:" ++ f.type ++ ";base64," ++ String.mk (base64Enc f.content)

/-- Strip the final extension from a file name: the replace of the JS
pattern dot, then one or more characters that are neither dot nor slash,
anchored at the end. -/
def stripExt (name : String) : String :=
  let rev := name.data.reverse
  let ext := rev.takeWhile (fun c => decide (c ≠ '.' ∧ c ≠ '/'))
  match rev.drop ext.length, ext with
  | '.' :: restRev, _ :: _ => String.mk restRev.reverse
  | _, _ => name

/-- The uploader record built by processAudioFile in AudioUploader.jsx
(a plain JS object, not a File). -/
structure AudioRecord where
  id : String
  name : String
  file : String
  duration : ℚ
  size : Nat
  type : String
  data : String
  uploadedAt : String
deriving DecidableEq

/-- A JS value passed to the storage service saveAudioFile: either a real
browser File (a Blob) or the plain uploader record. -/
inductive JsFileArg where
  | blob : BlobFile → JsFileArg
  | processed : AudioRecord → JsFileArg
deriving DecidableEq

/-- fileToBase64: wraps FileReader.readAsDataURL.  readAsDataURL has a
WebIDL Blob parameter and throws a TypeError for a non-Blob argument,
which rejects the surrounding promise. -/
def fileToBase64 : JsFileArg → Except String String
  | JsFileArg.blob f => Except.ok (dataUrl f)
  | JsFileArg.processed _ => Except.error "parameter 1 is not of type Blob"

/-! ## Storage service (src/unnamed/part_000) -/

/-- getAudioFiles: empty on unavailable storage, missing key, or a stored
value JSON.parse rejects (the catch branch). -/
def getAudioFiles (st : LocalStorage) : List AudioFile :=
  if checkStorageAvailability st = false then []
  else
    match st.getItemE audioFilesKey with
    | Except.error _ => []
    | Except.ok none => []
    | Except.ok (some s) =>
      match jsonParseFiles s with
      | some files => files
      | none => []

/-- getAudioFile: first stored record with the given id, else null. -/
def getAudioFile (id : String) (st : LocalStorage) : Option AudioFile :=
  (getAudioFiles st).find? (fun f => decide (f.id = id))

/-- deleteAudioFile: rewrite the stored list without the id; false only if
the write throws. -/
def deleteAudioFile (id : String) (st : LocalStorage) : Bool × LocalStorage :=
  let files := getAudioFiles st
  let updatedFiles := files.filter (fun f => decide (f.id ≠ id))
  match st.setItemE audioFilesKey (jsonStringifyFiles updatedFiles) with
  | Except.ok st2 => (true, st2)
  | Except.error _ => (false, st)

/-- getPlaybackState: null on missing key or any failure. -/
def getPlaybackState (st : LocalStorage) : Option PlaybackState :=
  match st.getItemE playbackStateKey with
  | Except.error _ => none
  | Except.ok none => none
  | Except.ok (some s) =>
    match jsonParsePlayback s with
    | some p => some p
    | none => none

/-- The default preferences object returned by getUserPreferences. -/
def defaultUserPreferences : UserPreferences :=
  { volume := 1, shuffle := false, repeatMode := "none", theme := "dark" }

/-- getUserPreferences: defaults on missing key or any failure. -/
def getUserPreferences (st : LocalStorage) : UserPreferences :=
  match st.getItemE userPreferencesKey with
  | Except.error _ => defaultUserPreferences
  | Except.ok none => defaultUserPreferences
  | Except.ok (some s) =>
    match jsonParsePrefs s with
    | some p => p
    | none => defaultUserPreferences

/-- The record returned by getStorageInfo (the derived MB strings of the JS
object are presentation only and omitted). -/
structure StorageInfo where
  used : Nat
  available : ℤ
  total : Nat
deriving DecidableEq

/-- getStorageInfo: zeroes when unavailable; otherwise a linear byte count
over every stored value. -/
def getStorageInfo (st : LocalStorage) : StorageInfo :=
  if checkStorageAvailability st = false then { used := 0, available := 0, total := 0 }
  else
    let used := (st.items.map (fun kv => kv.2.length)).sum
    let total : Nat := 10 * 1024 * 1024
    { used := used, available := (total : ℤ) - (used : ℤ), total := total }

/-- Validation outcome: the valid flag plus the optional error message. -/
structure ValidationResult where
  valid : Bool
  error : Option String
deriving DecidableEq

/-- Accepted MIME types of validateAudioFile. -/
def validTypes : List String :=
  ["audio/mpeg", "audio/mp3", "audio/wav", "audio/ogg", "audio/aac", "audio/m4a"]

/-- Lower-case a string character-wise (models the i regex flag). -/
def toLowerStr (s : String) : String := String.mk (s.data.map Char.toLower)

/-- Does the (case-insensitive) name end in one of the dotted extensions. -/
def hasAudioExt (name : String) (exts : List String) : Bool :=
  exts.any (fun e => e.data.isSuffixOf (toLowerStr name).data)

/-- Extensions of the storage validateAudioFile regex. -/
def storageExts : List String := [".mp3", ".wav", ".ogg", ".aac", ".m4a"]

/-- validateAudioFile: type/extension, 50MB cap, then available space. -/
def validateAudioFile (f : BlobFile) (st : LocalStorage) : ValidationResult :=
  let maxSize := 50 * 1024 * 1024
  if ¬ (validTypes.contains f.type = true ∨ hasAudioExt f.name storageExts = true) then
    { valid := false, error := some "Invalid audio file type" }
  else if f.size > maxSize then
    { valid := false, error := some "File size too large (max 50MB)" }
  else if (f.size : ℤ) > (getStorageInfo st).available then
    { valid := false, error := some "Not enough storage space available" }
  else { valid := true, error := none }

/-- Browser-supplied inputs consumed by one saveAudioFile call: the
generated id, the clock, and the duration the Audio element reports for
the object URL (none models the error event, which resolves the metadata
promise with duration 0). -/
structure SaveEnv where
  genId : String
  nowIso : String
  metaDuration : Option ℚ
deriving DecidableEq

/-- extractMetadata on a real File: resolves with the decoded duration, or
duration 0 from the error listener. -/
def extractMetadataBlob (env : SaveEnv) (f : BlobFile) : AudioMetadata :=
  { duration := env.metaDuration.getD 0, name := stripExt f.name,
    fileName := f.name, size := f.size, type := f.type,
    lastModified := f.lastModified }

/-- extractMetadata on a JS argument: URL.createObjectURL throws a
TypeError for a non-Blob argument, rejecting the promise. -/
def extractMetadataArg (env : SaveEnv) : JsFileArg → Except String AudioMetadata
  | JsFileArg.blob f => Except.ok (extractMetadataBlob env f)
  | JsFileArg.processed _ => Except.error "parameter 1 is not of type Blob"

/-- saveAudioFile: availability gate, base64 conversion, metadata
extraction, id generation, then append-and-write; every rejection is
rewrapped by the catch branch. -/
def saveAudioFile (env : SaveEnv) (arg : JsFileArg) (st : LocalStorage) :
    Except String (AudioFile × LocalStorage) :=
  if checkStorageAvailability st = false then
    Except.error "LocalStorage is not available"
  else
    match fileToBase64 arg with
    | Except.error e => Except.error ("Failed to save audio file: " ++ e)
    | Except.ok base64Data =>
      match extractMetadataArg env arg with
      | Except.error e => Except.error ("Failed to save audio file: " ++ e)
      | Except.ok metadata =>
        let audioFile : AudioFile :=
          { id := env.genId, data := base64Data, metadata := metadata,
            createdAt := env.nowIso, playCount := 0, lastPlayed := none }
        let existingFiles := getAudioFiles st
        let updatedFiles := existingFiles ++ [audioFile]
        match st.setItemE audioFilesKey (jsonStringifyFiles updatedFiles) with
        | Except.error _ => Except.error "Failed to save audio file: write failed"
        | Except.ok st2 => Except.ok (audioFile, st2)

/-! ## Upload pipeline (src/src/components/AudioUploader.jsx) -/

/-- supportedFormats of the uploader. -/
def supportedFormats : List String :=
  ["audio/mpeg", "audio/mp3", "audio/wav", "audio/ogg", "audio/m4a"]

/-- Extensions of the uploader validateFile regex. -/
def uploaderExts : List String := [".mp3", ".wav", ".ogg", ".m4a"]

/-- validateFile: MIME/extension check, then the 50MB cap. -/
def validateFile (f : BlobFile) : ValidationResult :=
  if ¬ (supportedFormats.contains f.type = true ∨ hasAudioExt f.name uploaderExts = true) then
    { valid := false,
      error := some "Unsupported file format. Please upload MP3, WAV, OGG, or M4A files." }
  else if f.size > 50 * 1024 * 1024 then
    { valid := false,
      error := some "File size too large. Please upload files smaller than 50MB." }
  else { valid := true, error := none }

/-- Browser inputs consumed while uploading one file: whether the Audio
element can decode the produced data URL, the duration it reports, the id
and timestamp, plus the inputs of the nested saveAudioFile call. -/
structure UploadEnv where
  decodeOk : Bool
  duration : ℚ
  idNow : String
  nowIso : String
  saveEnv : SaveEnv
deriving DecidableEq

/-- processAudioFile: reads the file as a data URL and waits for metadata;
rejects when the Audio element fires the error event. -/
def processAudioFile (env : UploadEnv) (f : BlobFile) : Except String AudioRecord :=
  if env.decodeOk then
    Except.ok { id := env.idNow, name := stripExt f.name, file := f.name,
                duration := env.duration, size := f.size, type := f.type,
                data := dataUrl f, uploadedAt := env.nowIso }
  else Except.error "Invalid audio file or corrupted data."

/-- The uploadStatus object (JS field type is called kind here). -/
structure UploadStatus where
  kind : String
  message : String
deriving DecidableEq

/-- Outcome of handleFiles: final status, processed records, storage. -/
structure UploadResult where
  status : Option UploadStatus
  processedFiles : List AudioRecord
  storage : LocalStorage
deriving DecidableEq

/-- The loop body of handleFiles: validate, process, save; the first
failure stops the batch with an error status.  Note the JS passes the
processed plain record, not the File, to saveAudioFile. -/
def handleFilesGo :
    List (BlobFile × UploadEnv) → LocalStorage → List AudioRecord → UploadResult
  | [], st, acc =>
    let okMsg := "Successfully uploaded " ++ String.mk (natDigits acc.length)
      ++ (if acc.length > 1 then " files" else " file")
    { status := some { kind := "success", message := okMsg },
      processedFiles := acc, storage := st }
  | (f, env) :: rest, st, acc =>
    let validation := validateFile f
    if validation.valid = false then
      { status := some { kind := "error", message := validation.error.getD "" },
        processedFiles := acc, storage := st }
    else
      match processAudioFile env f with
      | Except.error e =>
        let errMsg := "Failed to process " ++ f.name ++ ": " ++ e
        { status := some { kind := "error", message := errMsg },
          processedFiles := acc, storage := st }
      | Except.ok ar =>
        match saveAudioFile env.saveEnv (JsFileArg.processed ar) st with
        | Except.error e =>
          let errMsg := "Failed to process " ++ f.name ++ ": " ++ e
          { status := some { kind := "error", message := errMsg },
            processedFiles := acc, storage := st }
        | Except.ok (_, st2) => handleFilesGo rest st2 (acc ++ [ar])

/-- handleFiles: an empty selection is ignored, otherwise run the batch. -/
def handleFiles (batch : List (BlobFile × UploadEnv)) (st : LocalStorage) : UploadResult :=
  match batch with
  | [] => { status := none, processedFiles := [], storage := st }
  | _ :: _ => handleFilesGo batch st []

/-! ## Playback hook (src/src/hooks/useAudioPlayer.js) -/

/-- A track handed to loadTrack. -/
structure Track where
  id : String
  name : String
  url : String
deriving DecidableEq

/-- The hook state plus the wrapped Audio element (src, volume, position).
Event handlers are modelled as functions on this state. -/
structure PlayerState where
  currentTrack : Option Track
  isPlaying : Bool
  currentTime : ℚ
  duration : ℚ
  volume : ℚ
  isLoading : Bool
  error : Option String
  isShuffling : Bool
  repeatMode : String
  audioSrc : String
  audioVolume : ℚ
  audioCurrentTime : ℚ
deriving DecidableEq

/-- The initial hook state; a fresh Audio element has volume 1. -/
def initialPlayerState : PlayerState :=
  { currentTrack := none, isPlaying := false, currentTime := 0, duration := 0,
    volume := 1, isLoading := false, error := none, isShuffling := false,
    repeatMode := "none", audioSrc := "", audioVolume := 1, audioCurrentTime := 0 }

/-- A JS number that is either NaN or a real value. -/
inductive JsNum where
  | nan : JsNum
  | num : ℚ → JsNum
deriving DecidableEq

/-- seekTo: guarded by isNaN, then clamps into the track duration and
writes both the element position and the state. -/
def seekTo (time : JsNum) (s : PlayerState) : PlayerState :=
  match time with
  | JsNum.nan => s
  | JsNum.num t =>
    let seekTime := max 0 (min t s.duration)
    { s with audioCurrentTime := seekTime, currentTime := seekTime }

/-- changeVolume: clamps into the unit interval and writes the state and
the element volume. -/
def changeVolume (newVolume : ℚ) (s : PlayerState) : PlayerState :=
  let vol := max 0 (min 1 newVolume)
  { s with volume := vol, audioVolume := vol }

/-- toggleMute: zero the element volume if audible, else restore full
volume; the pre-mute level is not remembered. -/
def toggleMute (s : PlayerState) : PlayerState :=
  if s.audioVolume > 0 then { s with audioVolume := 0, volume := 0 }
  else { s with audioVolume := 1, volume := 1 }

/-- toggleShuffle: negate the flag. -/
def toggleShuffle (s : PlayerState) : PlayerState :=
  { s with isShuffling := !s.isShuffling }

/-- The switch inside toggleRepeat. -/
def nextRepeatMode (m : String) : String :=
  if m = "none" then "all"
  else if m = "all" then "one"
  else if m = "one" then "none"
  else "none"

/-- toggleRepeat: advance the repeat mode. -/
def toggleRepeat (s : PlayerState) : PlayerState :=
  { s with repeatMode := nextRepeatMode s.repeatMode }

/-- loadTrack: rejects a missing track or a falsy (empty) url, otherwise
points the element at the track, copying the state volume onto it. -/
def loadTrack (t : Option Track) (s : PlayerState) : PlayerState :=
  match t with
  | none => { s with error := some "Invalid track data" }
  | some tr =>
    if tr.url = "" then { s with error := some "Invalid track data" }
    else
      { s with currentTrack := some tr, isLoading := true, error := none,
               currentTime := 0, audioSrc := tr.url, audioVolume := s.volume }

/-- handleTrackEnd: repeat-one rewinds the element and keeps playing;
every other mode just resets the progress state. -/
def handleTrackEnd (s : PlayerState) : PlayerState :=
  if s.repeatMode = "one" then { s with audioCurrentTime := 0, isPlaying := true }
  else { s with currentTime := 0 }

/-- The ended event listener: stop, then run handleTrackEnd. -/
def handleEnded (s : PlayerState) : PlayerState :=
  handleTrackEnd { s with isPlaying := false }

/-- The volume-affecting operations of claim C7. -/
inductive PlayerOp where
  | change : ℚ → PlayerOp
  | mute : PlayerOp
  | load : Option Track → PlayerOp
deriving DecidableEq

/-- Apply one operation. -/
def applyOp (s : PlayerState) : PlayerOp → PlayerState
  | PlayerOp.change v => changeVolume v s
  | PlayerOp.mute => toggleMute s
  | PlayerOp.load t => loadTrack t s

/-- Run a sequence of operations from the initial state. -/
def runOps (ops : List PlayerOp) : PlayerState := ops.foldl applyOp initialPlayerState

/-! ## Web Audio wrapper (src/src/services/audioContext.js) -/

/-- The manager state relevant to setVolume: whether initialize has
created the gain node, and the gain value. -/
structure AudioContextManager where
  hasGainNode : Bool
  gainValue : ℚ
deriving DecidableEq

/-- AudioContextManager.setVolume: clamp into the unit interval, then
setValueAtTime on the gain param; a no-op before initialization. -/
def AudioContextManager.setVolume (m : AudioContextManager) (volume : ℚ) :
    AudioContextManager :=
  if m.hasGainNode then { m with gainValue := max 0 (min 1 volume) }
  else m

/-! ## Claim C10: seekTo clamps, NaN is a no-op -/

/-- C10: seekTo is total and clamping: for every non-NaN time t, seekTo(t)
sets both the audio element position and the currentTime state to
max(0, min(t, duration)); for NaN input seekTo leaves all state unchanged. -/
theorem C10_seekTo_clamps (s : PlayerState) (t : ℚ) :
    seekTo (JsNum.num t) s
      = { s with audioCurrentTime := max 0 (min t s.duration),
                 currentTime := max 0 (min t s.duration) }
    ∧ seekTo JsNum.nan s = s :=
  ⟨rfl, rfl⟩

/-! ## Claim C9: toggleMute does not restore the pre-mute volume -/

/-- C9: toggleMute zeroes an audible element and otherwise restores full
volume, so from any volume strictly between 0 and 1 two toggles end at 1,
not at the starting value. -/
theorem C9_toggleMute_no_restore (s : PlayerState) (v : ℚ) :
    (s.audioVolume > 0 → toggleMute s = { s with audioVolume := 0, volume := 0 })
    ∧ (¬ s.audioVolume > 0 → toggleMute s = { s with audioVolume := 1, volume := 1 })
    ∧ (0 < v → v < 1 →
        (toggleMute (toggleMute { s with audioVolume := v, volume := v })).volume = 1
        ∧ (toggleMute (toggleMute { s with audioVolume := v, volume := v })).volume ≠ v) := by
  refine ⟨?_, ?_, ?_⟩
  · intro h
    simp [toggleMute, h]
  · intro h
    simp [toggleMute, h]
  · intro h0 h1
    have hstep : toggleMute { s with audioVolume := v, volume := v }
        = { s with audioVolume := 0, volume := 0 } := by
      simp [toggleMute, h0]
    rw [hstep]
    have hstep2 : toggleMute ({ s with audioVolume := 0, volume := 0 } : PlayerState)
        = { s with audioVolume := 1, volume := 1 } := by
      simp [toggleMute]
    rw [hstep2]
    exact ⟨rfl, by intro hv; rw [← hv] at h1; exact absurd h1 (lt_irrefl 1)⟩

/-- C9 witness at volume one half. -/
theorem C9_witness :
    (toggleMute (toggleMute { initialPlayerState with
        audioVolume := ratOfParts 1 2, volume := ratOfParts 1 2 })).volume = 1
    ∧ (toggleMute (toggleMute { initialPlayerState with
        audioVolume := ratOfParts 1 2, volume := ratOfParts 1 2 })).volume
        ≠ ratOfParts 1 2 :=
  (C9_toggleMute_no_restore initialPlayerState (ratOfParts 1 2)).2.2
    (by decide) (by decide)

/-! ## Claim C5: repeat mode cycles through three states -/

/-- C5: toggleRepeat cycles none, all, one back to none (anything else maps
to none); three applications restore any of the three modes, and
toggleShuffle applied twice restores the shuffle flag. -/
theorem C5_toggleRepeat_cycle (s : PlayerState) :
    nextRepeatMode "none" = "all"
    ∧ nextRepeatMode "all" = "one"
    ∧ nextRepeatMode "one" = "none"
    ∧ (∀ m, m ≠ "none" → m ≠ "all" → m ≠ "one" → nextRepeatMode m = "none")
    ∧ (s.repeatMode = "none" ∨ s.repeatMode = "all" ∨ s.repeatMode = "one" →
        (toggleRepeat (toggleRepeat (toggleRepeat s))).repeatMode = s.repeatMode)
    ∧ (toggleShuffle (toggleShuffle s)).isShuffling = s.isShuffling := by
  refine ⟨by decide, by decide, by decide, ?_, ?_, ?_⟩
  · intro m h1 h2 h3
    simp [nextRepeatMode, h1, h2, h3]
  · intro h
    rcases h with h | h | h <;>
      simp [toggleRepeat, nextRepeatMode, h]
  · simp [toggleShuffle]

/-- C5 witness from the initial state (repeat mode none, shuffle off). -/
theorem C5_witness :
    (toggleRepeat (toggleRepeat (toggleRepeat initialPlayerState))).repeatMode
      = initialPlayerState.repeatMode
    ∧ (toggleShuffle (toggleShuffle initialPlayerState)).isShuffling
      = initialPlayerState.isShuffling :=
  ⟨(C5_toggleRepeat_cycle initialPlayerState).2.2.2.2.1 (Or.inl (by decide)),
   (C5_toggleRepeat_cycle initialPlayerState).2.2.2.2.2⟩

/-! ## Claim C4: behaviour at track end -/

/-- C4: when a loaded track ends, repeat-one rewinds the element and keeps
playing; the modes none and all stop playback, reset currentTime to 0 and
start no other track. -/
theorem C4_handleEnded (s : PlayerState) :
    (s.repeatMode = "one" →
      (handleEnded s).audioCurrentTime = 0 ∧ (handleEnded s).isPlaying = true)
    ∧ ((s.repeatMode = "none" ∨ s.repeatMode = "all") →
      (handleEnded s).isPlaying = false ∧ (handleEnded s).currentTime = 0
      ∧ (handleEnded s).currentTrack = s.currentTrack
      ∧ (handleEnded s).audioSrc = s.audioSrc) := by
  constructor
  · intro h
    simp [handleEnded, handleTrackEnd, h]
  · intro h
    have hne : s.repeatMode ≠ "one" := by
      rcases h with h | h <;> simp [h]
    simp [handleEnded, handleTrackEnd, hne]

/-- C4 witness: a state in repeat-one mode, and one in mode all. -/
theorem C4_witness :
    ((handleEnded { initialPlayerState with repeatMode := "one" }).audioCurrentTime = 0
      ∧ (handleEnded { initialPlayerState with repeatMode := "one" }).isPlaying = true)
    ∧ ((handleEnded { initialPlayerState with repeatMode := "all" }).isPlaying = false
      ∧ (handleEnded { initialPlayerState with repeatMode := "all" }).currentTime = 0
      ∧ (handleEnded { initialPlayerState with repeatMode := "all" }).currentTrack
          = ({ initialPlayerState with repeatMode := "all" } : PlayerState).currentTrack
      ∧ (handleEnded { initialPlayerState with repeatMode := "all" }).audioSrc
          = ({ initialPlayerState with repeatMode := "all" } : PlayerState).audioSrc) :=
  ⟨(C4_handleEnded { initialPlayerState with repeatMode := "one" }).1 (by decide),
   (C4_handleEnded { initialPlayerState with repeatMode := "all" }).2 (Or.inr (by decide))⟩

/-! ## Claim C7: volume stays within the unit interval -/

theorem applyOp_volume_bounds (s : PlayerState) (op : PlayerOp)
    (h0 : 0 ≤ s.volume) (h1 : s.volume ≤ 1) :
    0 ≤ (applyOp s op).volume ∧ (applyOp s op).volume ≤ 1 := by
  cases op with
  | change v =>
    refine ⟨le_max_left 0 _, ?_⟩
    exact max_le (by norm_num) (min_le_left 1 v)
  | mute =>
    by_cases h : s.audioVolume > 0 <;> simp [applyOp, toggleMute, h]
  | load t =>
    cases t with
    | none => exact ⟨h0, h1⟩
    | some tr =>
      by_cases h : tr.url = "" <;> simp [applyOp, loadTrack, h, h0, h1]

theorem foldl_volume_bounds (ops : List PlayerOp) :
    ∀ s : PlayerState, 0 ≤ s.volume → s.volume ≤ 1 →
      0 ≤ (ops.foldl applyOp s).volume ∧ (ops.foldl applyOp s).volume ≤ 1 := by
  induction ops with
  | nil => intro s h0 h1; exact ⟨h0, h1⟩
  | cons op rest ih =>
    intro s h0 h1
    have hb := applyOp_volume_bounds s op h0 h1
    exact ih (applyOp s op) hb.1 hb.2

/-- C7: from the initial volume 1, any sequence of changeVolume, toggleMute
and loadTrack operations keeps the stored volume in the unit interval;
changeVolume clamps its argument, and the Web Audio manager setVolume
clamps before applying the gain. -/
theorem C7_volume_invariant (ops : List PlayerOp) (v : ℚ) (s : PlayerState)
    (m : AudioContextManager) :
    (0 ≤ (runOps ops).volume ∧ (runOps ops).volume ≤ 1)
    ∧ (changeVolume v s).volume = max 0 (min 1 v)
    ∧ (m.hasGainNode = true →
        (m.setVolume v).gainValue = max 0 (min 1 v)
        ∧ 0 ≤ (m.setVolume v).gainValue ∧ (m.setVolume v).gainValue ≤ 1) := by
  refine ⟨foldl_volume_bounds ops initialPlayerState (by decide) (by decide),
    rfl, ?_⟩
  intro h
  have hval : (m.setVolume v).gainValue = max 0 (min 1 v) := by
    simp [AudioContextManager.setVolume, h]
  rw [hval]
  exact ⟨rfl, le_max_left 0 _, max_le (by norm_num) (min_le_left 1 v)⟩

/-- C7 witness: one clamping operation and an initialized manager. -/
theorem C7_witness :
    (0 ≤ (runOps [PlayerOp.change 2]).volume ∧ (runOps [PlayerOp.change 2]).volume ≤ 1)
    ∧ (changeVolume 2 initialPlayerState).volume = max 0 (min 1 2)
    ∧ (({ hasGainNode := true, gainValue := 0 } : AudioContextManager).setVolume 2).gainValue
        = max 0 (min 1 2)
    ∧ 0 ≤ (({ hasGainNode := true, gainValue := 0 } : AudioContextManager).setVolume 2).gainValue
    ∧ (({ hasGainNode := true, gainValue := 0 } : AudioContextManager).setVolume 2).gainValue ≤ 1 := by
  have h := C7_volume_invariant [PlayerOp.change 2] 2 initialPlayerState
    { hasGainNode := true, gainValue := 0 }
  have h3 := h.2.2 (by decide)
  exact ⟨h.1, h.2.1, h3.1, h3.2.1, h3.2.2⟩

/-! ## Claim C3: storage accounting and file validation -/

/-- C3: with available storage, getStorageInfo reports used as the sum of
the string lengths of every stored value, total as the fixed 10MB constant
and available as their difference; and validateAudioFile rejects exactly a
non-audio type/extension, a size beyond 50MB, or a size beyond the
computed available bytes. -/
theorem C3_storageInfo_validate (st : LocalStorage) (f : BlobFile)
    (hav : checkStorageAvailability st = true) :
    (getStorageInfo st).used = (st.items.map (fun kv => kv.2.length)).sum
    ∧ (getStorageInfo st).total = 10 * 1024 * 1024
    ∧ (getStorageInfo st).available
        = (10 * 1024 * 1024 : ℤ) - ((st.items.map (fun kv => kv.2.length)).sum : ℤ)
    ∧ ((validateAudioFile f st).valid = false ↔
        (¬ (validTypes.contains f.type = true ∨ hasAudioExt f.name storageExts = true)
          ∨ f.size > 50 * 1024 * 1024
          ∨ (f.size : ℤ) > (getStorageInfo st).available)) := by
  refine ⟨by simp [getStorageInfo, hav], by simp [getStorageInfo, hav],
    by simp [getStorageInfo, hav, Function.comp_def], ?_⟩
  simp only [validateAudioFile]
  split_ifs with hA hB hC <;> simp_all

/-- Storage with one five-character value, available and below quota. -/
def c3Store : LocalStorage := { available := true, items := [("k", "abcde")] }

/-- A small valid mp3 file. -/
def wFile : BlobFile :=
  { name := "song.mp3", type := "audio/mpeg", size := 3, content := [1, 2, 3],
    lastModified := 0 }

/-- C3 witness on a storage with one five-character value. -/
theorem C3_witness :
    (getStorageInfo c3Store).used = (c3Store.items.map (fun kv => kv.2.length)).sum
    ∧ (getStorageInfo c3Store).total = 10 * 1024 * 1024
    ∧ (getStorageInfo c3Store).available
        = (10 * 1024 * 1024 : ℤ) - ((c3Store.items.map (fun kv => kv.2.length)).sum : ℤ)
    ∧ ((validateAudioFile wFile c3Store).valid = false ↔
        (¬ (validTypes.contains wFile.type = true
            ∨ hasAudioExt wFile.name storageExts = true)
          ∨ wFile.size > 50 * 1024 * 1024
          ∨ (wFile.size : ℤ) > (getStorageInfo c3Store).available)) :=
  C3_storageInfo_validate c3Store wFile (by decide)

/-! ## Claim C6: storage reads never throw -/

/-- C6: every read is total: getAudioFiles falls back to the empty list on
unavailable storage, a missing key or unparseable JSON; getPlaybackState
falls back to null; getUserPreferences falls back to the default
preferences object volume 1, shuffle off, repeat none, dark theme. -/
theorem C6_reads_never_throw (st : LocalStorage) (s : String) :
    (checkStorageAvailability st = false → getAudioFiles st = [])
    ∧ (lookupItem st.items audioFilesKey = none → getAudioFiles st = [])
    ∧ (lookupItem st.items audioFilesKey = some s → jsonParseFiles s = none →
        getAudioFiles st = [])
    ∧ (st.available = false → getPlaybackState st = none)
    ∧ (lookupItem st.items playbackStateKey = none → getPlaybackState st = none)
    ∧ (lookupItem st.items playbackStateKey = some s → jsonParsePlayback s = none →
        getPlaybackState st = none)
    ∧ (st.available = false → getUserPreferences st = defaultUserPreferences)
    ∧ (lookupItem st.items userPreferencesKey = none →
        getUserPreferences st = defaultUserPreferences)
    ∧ (lookupItem st.items userPreferencesKey = some s → jsonParsePrefs s = none →
        getUserPreferences st = defaultUserPreferences)
    ∧ defaultUserPreferences
        = { volume := 1, shuffle := false, repeatMode := "none", theme := "dark" } := by
  refine ⟨?_, ?_, ?_, ?_, ?_, ?_, ?_, ?_, ?_, rfl⟩
  · intro h
    simp [getAudioFiles, h]
  · intro h
    by_cases hav : st.available <;>
      simp [getAudioFiles, checkStorageAvailability, LocalStorage.getItemE, hav, h]
  · intro h hp
    by_cases hav : st.available <;>
      simp [getAudioFiles, checkStorageAvailability, LocalStorage.getItemE, hav, h, hp]
  · intro h
    simp [getPlaybackState, LocalStorage.getItemE, h]
  · intro h
    by_cases hav : st.available <;>
      simp [getPlaybackState, LocalStorage.getItemE, hav, h]
  · intro h hp
    by_cases hav : st.available <;>
      simp [getPlaybackState, LocalStorage.getItemE, hav, h, hp]
  · intro h
    simp [getUserPreferences, LocalStorage.getItemE, h]
  · intro h
    by_cases hav : st.available <;>
      simp [getUserPreferences, LocalStorage.getItemE, hav, h]
  · intro h hp
    by_cases hav : st.available <;>
      simp [getUserPreferences, LocalStorage.getItemE, hav, h, hp]

/-- Available storage whose three player keys hold unparseable values. -/
def corruptStore : LocalStorage :=
  { available := true,
    items := [(audioFilesKey, "corrupt"), (playbackStateKey, "junk"),
              (userPreferencesKey, "junk")] }

/-- C6 witness: corrupt stored values fall back to the defaults. -/
theorem C6_witness :
    getAudioFiles corruptStore = []
    ∧ getPlaybackState corruptStore = none
    ∧ getUserPreferences corruptStore = defaultUserPreferences :=
  ⟨(C6_reads_never_throw corruptStore "corrupt").2.2.1 (by decide) (by decide),
   (C6_reads_never_throw corruptStore "junk").2.2.2.2.2.1 (by decide) (by decide),
   (C6_reads_never_throw corruptStore "junk").2.2.2.2.2.2.2.2.1 (by decide) (by decide)⟩

/-! ## Claim C8: deleteAudioFile removes exactly the matching ids -/

theorem getAudioFiles_set (st : LocalStorage) (l : List AudioFile)
    (hav : st.available = true) :
    getAudioFiles
      { st with items := setItemList st.items audioFilesKey (jsonStringifyFiles l) }
      = l := by
  simp [getAudioFiles, checkStorageAvailability, LocalStorage.getItemE, hav,
    lookupItem_setItemList_self, jsonParseFiles_stringify]

theorem getAudioFiles_of_key (st : LocalStorage) (files : List AudioFile)
    (hav : st.available = true)
    (hkey : lookupItem st.items audioFilesKey = some (jsonStringifyFiles files)) :
    getAudioFiles st = files := by
  simp [getAudioFiles, checkStorageAvailability, LocalStorage.getItemE, hav, hkey,
    jsonParseFiles_stringify]

/-- C8: with the stored list decoding to files, deleteAudioFile returns
true and leaves exactly the records whose id differs, in order; deleting
an absent id leaves the list unchanged. -/
theorem C8_delete_exact (st : LocalStorage) (files : List AudioFile) (id : String)
    (hav : st.available = true)
    (hkey : lookupItem st.items audioFilesKey = some (jsonStringifyFiles files)) :
    (deleteAudioFile id st).1 = true
    ∧ getAudioFiles (deleteAudioFile id st).2
        = files.filter (fun f => decide (f.id ≠ id))
    ∧ ((∀ f ∈ files, f.id ≠ id) → getAudioFiles (deleteAudioFile id st).2 = files) := by
  have hfiles : getAudioFiles st = files := getAudioFiles_of_key st files hav hkey
  have hdel : deleteAudioFile id st = (true, { st with items := setItemList st.items audioFilesKey (jsonStringifyFiles (files.filter (fun f => decide (f.id ≠ id)))) }) := by
    simp [deleteAudioFile, hfiles, LocalStorage.setItemE, hav]
  rw [hdel]
  refine ⟨rfl, getAudioFiles_set st _ hav, ?_⟩
  intro habs
  rw [getAudioFiles_set st _ hav]
  rw [List.filter_eq_self]
  intro f hf
  simp [habs f hf]

/-- A second stored record for the C8 witness. -/
def recB : AudioFile :=
  { id := "b", data := "db",
    metadata := { duration := 1, name := "b", fileName := "b.mp3", size := 2,
                  type := "audio/mpeg", lastModified := 1 },
    createdAt := "t1", playCount := 3, lastPlayed := some "t2" }

/-- A first stored record for the C8 witness. -/
def recA : AudioFile :=
  { id := "a", data := "da",
    metadata := { duration := 2, name := "a", fileName := "a.mp3", size := 1,
                  type := "audio/wav", lastModified := 0 },
    createdAt := "t0", playCount := 0, lastPlayed := none }

/-- Storage holding the two witness records. -/
def c8Store : LocalStorage :=
  { available := true, items := [(audioFilesKey, jsonStringifyFiles [recA, recB])] }

/-- C8 witness: deleting id a keeps exactly recB; deleting the absent id z
keeps both records and still returns true. -/
theorem C8_witness :
    ((deleteAudioFile "a" c8Store).1 = true
      ∧ getAudioFiles (deleteAudioFile "a" c8Store).2
          = [recA, recB].filter (fun f => decide (f.id ≠ "a")))
    ∧ ((deleteAudioFile "z" c8Store).1 = true
      ∧ getAudioFiles (deleteAudioFile "z" c8Store).2 = [recA, recB]) := by
  have h1 := C8_delete_exact c8Store [recA, recB] "a" (by decide) (by rfl)
  have h2 := C8_delete_exact c8Store [recA, recB] "z" (by decide) (by rfl)
  exact ⟨⟨h1.1, h1.2.1⟩, ⟨h2.1, h2.2.2 (by decide)⟩⟩

/-! ## Claim C2: persistence round-trip of saveAudioFile -/

/-- The record a successful saveAudioFile call stores. -/
def savedRecord (env : SaveEnv) (f : BlobFile) : AudioFile :=
  { id := env.genId, data := dataUrl f, metadata := extractMetadataBlob env f,
    createdAt := env.nowIso, playCount := 0, lastPlayed := none }

/-- The storage a successful saveAudioFile call leaves behind. -/
def savedStorage (env : SaveEnv) (f : BlobFile) (st : LocalStorage) : LocalStorage :=
  { st with items := setItemList st.items audioFilesKey (jsonStringifyFiles (getAudioFiles st ++ [savedRecord env f])) }

theorem find?_append_fresh (l : List AudioFile) (r : AudioFile) (i : String)
    (h : ∀ g ∈ l, g.id ≠ i) (hr : r.id = i) :
    (l ++ [r]).find? (fun g => decide (g.id = i)) = some r := by
  induction l with
  | nil => simp [List.find?, hr]
  | cons g rest ih =>
    have hg : (decide (g.id = i)) = false := by
      simp [h g (List.mem_cons_self g rest)]
    have hrest : ∀ x ∈ rest, x.id ≠ i := fun x hx => h x (List.mem_cons_of_mem g hx)
    simp [List.find?, hg, ih hrest]

/-- C2 (amended): when storage is available (so that saveAudioFile
succeeds) and the generated id is fresh, the save returns the stored
record and state, a getAudioFile on the new id returns that record, the
file list is the previous list with the record appended, and its data
field is the base64 data URL of the file.  Without the freshness
hypothesis the getAudioFile conjunct fails, see the counterexample. -/
theorem C2_save_roundtrip (env : SaveEnv) (f : BlobFile) (st : LocalStorage)
    (hav : checkStorageAvailability st = true)
    (hfresh : ∀ g ∈ getAudioFiles st, g.id ≠ env.genId) :
    saveAudioFile env (JsFileArg.blob f) st
      = Except.ok (savedRecord env f, savedStorage env f st)
    ∧ getAudioFile (savedRecord env f).id (savedStorage env f st)
      = some (savedRecord env f)
    ∧ getAudioFiles (savedStorage env f st)
      = getAudioFiles st ++ [savedRecord env f]
    ∧ (savedRecord env f).data = dataUrl f := by
  have hav' : st.available = true := hav
  have hfls : getAudioFiles (savedStorage env f st)
      = getAudioFiles st ++ [savedRecord env f] := by
    simpa [savedStorage] using
      getAudioFiles_set st (getAudioFiles st ++ [savedRecord env f]) hav'
  refine ⟨?_, ?_, hfls, rfl⟩
  · simp [saveAudioFile, checkStorageAvailability, hav', fileToBase64,
      extractMetadataArg, LocalStorage.setItemE, savedRecord, savedStorage]
  · rw [getAudioFile, hfls]
    exact find?_append_fresh (getAudioFiles st) (savedRecord env f) (savedRecord env f).id
      hfresh rfl

/-- Environment whose generated id is fresh for the C2 witness storage. -/
def freshEnv : SaveEnv := { genId := "fresh", nowIso := "t9", metaDuration := some 4 }

/-- C2 witness: a save into the two-record storage with a fresh id. -/
theorem C2_witness :
    saveAudioFile freshEnv (JsFileArg.blob wFile) c8Store
      = Except.ok (savedRecord freshEnv wFile, savedStorage freshEnv wFile c8Store)
    ∧ getAudioFile (savedRecord freshEnv wFile).id (savedStorage freshEnv wFile c8Store)
      = some (savedRecord freshEnv wFile)
    ∧ getAudioFiles (savedStorage freshEnv wFile c8Store)
      = getAudioFiles c8Store ++ [savedRecord freshEnv wFile]
    ∧ (savedRecord freshEnv wFile).data = dataUrl wFile :=
  C2_save_roundtrip freshEnv wFile c8Store (by decide) (by decide)

/-- The record stored before the colliding save. -/
def dupOld : AudioFile :=
  { id := "dup", data := "old",
    metadata := { duration := 0, name := "a", fileName := "a.mp3", size := 1,
                  type := "audio/mpeg", lastModified := 0 },
    createdAt := "t0", playCount := 0, lastPlayed := none }

/-- Storage already holding a record with id dup. -/
def dupStore : LocalStorage :=
  { available := true, items := [(audioFilesKey, jsonStringifyFiles [dupOld])] }

/-- An execution environment whose generated id collides with dupOld. -/
def dupEnv : SaveEnv := { genId := "dup", nowIso := "t1", metaDuration := some 2 }

/-- The file saved in the counterexample. -/
def dupFile : BlobFile :=
  { name := "b.mp3", type := "audio/mpeg", size := 1, content := [0],
    lastModified := 5 }

set_option maxRecDepth 40000 in
/-- C2 counterexample: saveAudioFile succeeds and returns a record whose
generated id collides with a stored record; getAudioFile on that id then
returns the old record, not the returned one, because find scans from the
front.  This falsifies the round-trip claim as stated. -/
theorem C2_counterexample :
    saveAudioFile dupEnv (JsFileArg.blob dupFile) dupStore
      = Except.ok (savedRecord dupEnv dupFile, savedStorage dupEnv dupFile dupStore)
    ∧ getAudioFile (savedRecord dupEnv dupFile).id (savedStorage dupEnv dupFile dupStore)
      = some dupOld
    ∧ dupOld ≠ savedRecord dupEnv dupFile :=
  ⟨by rfl, by decide, by decide⟩

/-! ## Claim C1: the upload pipeline and persistence -/

/-- C1 (code bug): for any file the uploader validates, and any browser
environment and storage state, handleFiles reports an error status and
leaves storage untouched — the validated file is never persisted.  The
uploader hands saveAudioFile its processed plain record instead of the
File, and the FileReader readAsDataURL call inside saveAudioFile throws a
TypeError for every non-Blob argument, so every save rejects. -/
theorem C1_pipeline_never_persists (f : BlobFile) (env : UploadEnv) (st : LocalStorage)
    (hv : (validateFile f).valid = true) :
    (handleFiles [(f, env)] st).status.map UploadStatus.kind = some "error"
    ∧ (handleFiles [(f, env)] st).storage = st
    ∧ getAudioFiles (handleFiles [(f, env)] st).storage = getAudioFiles st := by
  have hcase :
      (handleFiles [(f, env)] st).status.map UploadStatus.kind = some "error"
      ∧ (handleFiles [(f, env)] st).storage = st := by
    by_cases hd : env.decodeOk
    · by_cases hav : st.available
      · simp [handleFiles, handleFilesGo, hv, processAudioFile, hd, saveAudioFile,
          checkStorageAvailability, hav, fileToBase64]
      · simp [handleFiles, handleFilesGo, hv, processAudioFile, hd, saveAudioFile,
          checkStorageAvailability, hav]
    · simp [handleFiles, handleFilesGo, hv, processAudioFile, hd]
  exact ⟨hcase.1, hcase.2, by rw [hcase.2]⟩

/-- Environment for the C1 witness: the browser decodes the file fine. -/
def wEnv : UploadEnv :=
  { decodeOk := true, duration := 3, idNow := "100",
    nowIso := "t", saveEnv := { genId := "g1", nowIso := "t", metaDuration := some 3 } }

/-- Empty available storage. -/
def emptyStore : LocalStorage := { available := true, items := [] }

/-- C1 witness: a valid small mp3 upload still ends in an error status and
stores nothing. -/
theorem C1_witness :
    (handleFiles [(wFile, wEnv)] emptyStore).status.map UploadStatus.kind = some "error"
    ∧ (handleFiles [(wFile, wEnv)] emptyStore).storage = emptyStore
    ∧ getAudioFiles (handleFiles [(wFile, wEnv)] emptyStore).storage
        = getAudioFiles emptyStore :=
  C1_pipeline_never_persists wFile wEnv emptyStore (by decide)
